import Mathlib

/-!
Verification of the chloros user-level cooperative threading runtime
(src/src/chloros.cpp) against its natural-language specification.

The runtime is shallowly embedded: thread lifecycle states, the scheduler
pool (a front-to-back ordered list, as `std::vector<std::unique_ptr<Thread>>`
is scanned with begin()..end()), the selection loop of `Yield`, the state
mutations of `Yield`/`Spawn`/`Wait`/`GarbageCollect`/`GetThreadCount`, the
stack-priming protocol of `Spawn`, and a deterministic single-execution-context
small-step interpreter in which each logical thread carries its remaining
instruction continuation, so that the context-switch round trips of the C++
code (suspension inside `ContextSwitch`, resumption running `GarbageCollect`
before `Yield` returns true) are explicit.
-/

namespace Chloros

/-- Thread lifecycle states, from `enum State` used in chloros.cpp
(kWaiting, kReady, kRunning, kZombie). -/
inductive State where
  | kWaiting
  | kReady
  | kRunning
  | kZombie
deriving DecidableEq

/-- Instructions of the small-step interpreter.  Each constructor stands for
one atomic piece of runtime-relevant behaviour of the C++ code:
user code incrementing a shared counter (`incr`), the trampoline marking the
running thread Zombie (ThreadEntry, line 206), the trampoline's trailing
`ASSERT(false)` (line 211, `assertFail`), `Wait`'s store of kWaiting
(lines 172/174, `setWaiting`), the `GarbageCollect()` performed after a
resumed `ContextSwitch` (line 166, `gcRun`), and the scheduler entry points
`spawn`, `yield`, `wait` with `waitLoop` the state of `Wait`'s while loop. -/
inductive Instr where
  | incr
  | markZombie
  | setWaiting
  | gcRun
  | assertFail
  | spawn (body : List Instr)
  | yield (only_ready : Bool)
  | wait
  | waitLoop

/-- A logical thread as the scheduler sees it: its unique id, its lifecycle
state, and (for the interpreter) its remaining instruction continuation.
Mirrors `struct Thread` fields `id` and `state`; the owned stack and the
saved register context are modelled separately (`ThreadObj`, `SpawnFrame`). -/
structure Thread where
  id : Nat
  state : State
  cont : List Instr

/-- The selection loop of `Yield` (chloros.cpp lines 136-147): scan the pool
front to back; a thread is taken if `only_ready` is false and its state is
kWaiting, or else if its state is kReady; the taken thread is erased from the
pool (the remaining threads keep their order).  Returns the selected thread
and the pool with it erased, or none when the loop finds nothing. -/
def selectNext (only_ready : Bool) : List Thread → Option (Thread × List Thread)
  | [] => none
  | t :: ts =>
    if only_ready = false ∧ t.state = State.kWaiting then some (t, ts)
    else if t.state = State.kReady then some (t, ts)
    else
      match selectNext only_ready ts with
      | some (n, rest) => some (n, t :: rest)
      | none => none

/-- Eligibility predicate implied by the two selection branches of the loop:
a thread can be selected iff it is kReady, or `only_ready` is false and it is
kWaiting. -/
def eligibleP (only_ready : Bool) (t : Thread) : Prop :=
  (only_ready = false ∧ t.state = State.kWaiting) ∨ t.state = State.kReady

instance (b : Bool) (t : Thread) : Decidable (eligibleP b t) := by
  unfold eligibleP; infer_instance

/-- The demotion step of `Yield` (lines 156-157): the currently running
thread is set to kReady only if it is still kRunning; any other state is
kept. -/
def demote (t : Thread) : Thread :=
  if t.state = State.kRunning then { t with state := State.kReady } else t

/-- `GarbageCollect` (lines 178-187): scan the pool and erase (freeing) every
thread in state kZombie, keeping all others in order. -/
def garbageCollect : List Thread → List Thread
  | [] => []
  | t :: ts =>
    if t.state = State.kZombie then garbageCollect ts else t :: garbageCollect ts

/-- The threads whose owned stacks are freed by one `GarbageCollect` pass
(the `(*iter).reset()` calls, line 181): exactly the kZombie entries. -/
def gcFreedStacks : List Thread → List Thread
  | [] => []
  | t :: ts =>
    if t.state = State.kZombie then t :: gcFreedStacks ts else gcFreedStacks ts

/-- `GetThreadCount` (lines 189-202): fold over the pool counting
(non-zombie, zombie) under the queue lock. -/
def getThreadCount (pool : List Thread) : Nat × Nat :=
  pool.foldl
    (fun acc t =>
      if t.state = State.kZombie then (acc.1, acc.2 + 1) else (acc.1 + 1, acc.2))
    (0, 0)

/-- Modelled from the spec: the header chloros.h is not under src/, so the
default value of `Yield`'s `only_ready` parameter — used by the bare calls
`Yield()` in `Spawn` (line 127) and in `ThreadEntry` (line 209) — is taken
from the spec, which requires `Spawn`'s trailing `Yield` to be able to select
the freshly created thread (which is in state kWaiting until it first runs)
and the trampoline's final `Yield` to hand control "to someone else"
including kWaiting threads: the default is false. -/
def yieldDefaultOnlyReady : Bool := false

/-- The instruction continuation a spawned thread starts with: the
`StartThread`/`ThreadEntry` glue runs the user function's body, then marks
the thread kZombie (line 206), calls `Yield()` (line 209), and would hit
`ASSERT(false)` (line 211) if that call ever returned. -/
def trampolineCont (body : List Instr) : List Instr :=
  body ++ [Instr.markZombie, Instr.yield yieldDefaultOnlyReady, Instr.assertFail]

/-- Global interpreter state of one execution context: the shared counter
incremented by user code, the context's currently running thread
(`current_thread`), the shared pool (`thread_queue`), the id source
(`Thread::next_id`), and whether an `ASSERT(false)` was reached. -/
structure Sys where
  counter : Nat
  current : Thread
  pool : List Thread
  nextId : Nat
  aborted : Bool

/-- The shared core of `Yield` (lines 136-168) as one transition of the
global state: select from the pool; on failure only the caller's
continuation advances (`Yield` returns false, nothing else changes); on
success the current thread is demoted if still kRunning, the selected
thread is set kRunning and becomes current, and the suspended thread is
pushed to the back of the pool carrying `resumeCont` — the code it runs
when some later `ContextSwitch` resumes it (for a plain `Yield` call that is
`GarbageCollect(); return true;`). -/
def doYield (b : Bool) (resumeCont failCont : List Instr) (s : Sys) : Sys :=
  match selectNext b s.pool with
  | none => { s with current := { s.current with cont := failCont } }
  | some (next, rest) =>
    { s with
      current := { next with state := State.kRunning },
      pool := rest ++ [{ demote s.current with cont := resumeCont }] }

/-- One instruction of the current thread.  `spawn` (lines 105-128) creates
a kWaiting thread with a fresh id and the trampoline continuation, inserts
it at the FRONT of the pool, and then immediately executes `Yield()`;
`yield`'s resumption continuation runs `GarbageCollect` before continuing
(line 166); `wait` (lines 171-176) marks the caller kWaiting and enters the
loop `while (Yield(true)) state = kWaiting;`, whose resumption re-marks
kWaiting and re-enters the loop. -/
def execInstr (i : Instr) (k : List Instr) (s : Sys) : Sys :=
  match i with
  | Instr.incr =>
    { s with counter := s.counter + 1, current := { s.current with cont := k } }
  | Instr.markZombie =>
    { s with current := { s.current with state := State.kZombie, cont := k } }
  | Instr.setWaiting =>
    { s with current := { s.current with state := State.kWaiting, cont := k } }
  | Instr.gcRun =>
    { s with pool := garbageCollect s.pool, current := { s.current with cont := k } }
  | Instr.assertFail =>
    { s with aborted := true, current := { s.current with cont := k } }
  | Instr.spawn body =>
    { s with
      pool := { id := s.nextId, state := State.kWaiting,
                cont := trampolineCont body } :: s.pool,
      nextId := s.nextId + 1,
      current := { s.current with cont := Instr.yield yieldDefaultOnlyReady :: k } }
  | Instr.yield b => doYield b (Instr.gcRun :: k) k s
  | Instr.wait =>
    { s with current := { s.current with cont := Instr.setWaiting :: Instr.waitLoop :: k } }
  | Instr.waitLoop =>
    doYield true (Instr.gcRun :: Instr.setWaiting :: Instr.waitLoop :: k) k s

/-- One small step: run the next instruction of the current thread; a thread
with an empty continuation has returned from its outermost frame and the
system halts. -/
def step (s : Sys) : Sys :=
  match s.current.cont with
  | [] => s
  | i :: k => execInstr i k s

/-- Iterated stepping. -/
def stepN : Nat → Sys → Sys
  | 0, s => s
  | n + 1, s => stepN n (step s)

/-- `Initialize` (lines 98-103) on a fresh process: creates a stackless
thread (constructor sets kWaiting; line 100 re-asserts kWaiting), records it
as the context's initial and current thread.  `Thread::next_id` starts at 0,
so the initial thread has id 0 and the next fresh id is 1. -/
def initSys (prog : List Instr) : Sys :=
  { counter := 0,
    current := { id := 0, state := State.kWaiting, cont := prog },
    pool := [],
    nextId := 1,
    aborted := false }

/-- The non-scheduler fields set by the constructor `Thread::Thread`
(lines 54-62): a fresh id, state kWaiting, a stack buffer allocated exactly
when `create_stack` is true, and the fixed floating-point control defaults
mxcsr = 0x1F80 and x87 control word = 0x037F. -/
structure ThreadObj where
  id : Nat
  state : State
  hasStack : Bool
  mxcsr : Nat
  x87 : Nat

/-- `Thread::Thread(bool create_stack)` (lines 54-62). -/
def mkThreadObj (create_stack : Bool) (id : Nat) : ThreadObj :=
  { id := id,
    state := State.kWaiting,
    hasStack := create_stack,
    mxcsr := 0x1F80,
    x87 := 0x037F }

/-- `kStackSize` (line 30): `1 << 21` bytes. -/
def kStackSize : Nat := 2 ^ 21

/-- The stack viewed as an array of 64-bit slots: `kStackSize / sizeof(uint64_t)`
entries (line 112). -/
def stackSlots : Nat := kStackSize / 8

/-- Point update of a slot-indexed stack image. -/
def upd (f : Nat → Nat) (i v : Nat) : Nat → Nat :=
  fun j => if j = i then v else f j

/-- The primed initial stack image of a spawned thread: the slot contents
(unwritten slots read 0, standing for "never stored by Spawn") and the slot
index the saved stack pointer (`context.rsp`, line 120) is set to. -/
structure SpawnFrame where
  slot : Nat → Nat
  rspIndex : Nat

/-- The stack-priming protocol of `Spawn` (lines 112-120), with `fn`, `arg`
and the address of `start_thread` as abstract 64-bit values:
`idx = kStackSize/8 - 1; idx--;` skips the topmost slot for 16-byte
alignment, then `stack[idx--] = arg; stack[idx--] = fn;
stack[idx] = StartThread;` and `rsp = &stack[idx]`. -/
def primeStack (fn arg startThreadAddr : Nat) : SpawnFrame :=
  let idx0 := stackSlots - 1
  let idx1 := idx0 - 1
  let s1 := upd (fun _ => 0) idx1 arg
  let idx2 := idx1 - 1
  let s2 := upd s1 idx2 fn
  let idx3 := idx2 - 1
  let s3 := upd s2 idx3 startThreadAddr
  { slot := s3, rspIndex := idx3 }

/-- The per-execution-context (thread_local) scheduler state: the context's
`current_thread` and its recorded `initial_thread_id` (lines 40-48). -/
structure KernelCtx where
  current : Thread
  initialId : Nat

/-- `Initialize` (lines 98-103) on one execution context, given the id the
atomic `Thread::next_id` hands out: the created thread is kWaiting and is
recorded both as the context's initial thread and as its current thread. -/
def initKernelCtx (id : Nat) : KernelCtx :=
  { current := { id := id, state := State.kWaiting, cont := [] },
    initialId := id }

/-- `Yield` as called from one execution context of a multi-context run,
acting on that context's `current_thread` and the shared pool (lines
130-168, state changes up to the `ContextSwitch`).  Exactly as in the
source, the selection consults only each pool thread's state — the
thread-local `initial_thread_id` is not read anywhere in `Yield`. -/
def yieldCtx (b : Bool) (k : KernelCtx) (pool : List Thread) :
    Option (KernelCtx × List Thread) :=
  match selectNext b pool with
  | none => none
  | some (next, rest) =>
    some ({ k with current := { next with state := State.kRunning } },
          rest ++ [demote k.current])

/-- One access to the shared `thread_queue`, transcribed from the source
together with whether the access mutates the pool and whether a
`std::lock_guard` (or other acquisition) of `queue_lock` is in scope at
that statement. -/
structure PoolAccess where
  mutatesPool : Bool
  underQueueLock : Bool
deriving DecidableEq

/-- `Spawn`'s pool accesses: the `thread_queue.insert(thread_queue.begin(), …)`
at line 124, performed with no lock on `queue_lock`. -/
def spawnPoolAccesses : List PoolAccess :=
  [{ mutatesPool := true, underQueueLock := false }]

/-- `Yield`'s pool accesses: the `thread_queue.erase(iter)` of the selection
loop (lines 140 and 144) and the `thread_queue.push_back(…)` at line 160,
both performed with no lock on `queue_lock`. -/
def yieldPoolAccesses : List PoolAccess :=
  [{ mutatesPool := true, underQueueLock := false },
   { mutatesPool := true, underQueueLock := false }]

/-- `GarbageCollect`'s pool access: the `thread_queue.erase(iter)` at line
182, performed with no lock on `queue_lock`. -/
def garbageCollectPoolAccesses : List PoolAccess :=
  [{ mutatesPool := true, underQueueLock := false }]

/-- `GetThreadCount`'s pool access: the read-only scan at lines 194-200,
performed under `std::lock_guard<std::mutex> lock{queue_lock}` (line 193). -/
def getThreadCountPoolAccesses : List PoolAccess :=
  [{ mutatesPool := false, underQueueLock := true }]

/-- All pool accesses of `Spawn`, `Yield`, `GarbageCollect` and
`GetThreadCount`. -/
def allPoolAccesses : List PoolAccess :=
  spawnPoolAccesses ++ yieldPoolAccesses ++ garbageCollectPoolAccesses ++
    getThreadCountPoolAccesses

/-- A list of pool accesses is serialized by the pool mutex when every
mutating access holds `queue_lock`. -/
def serializedByQueueLock (l : List PoolAccess) : Prop :=
  ∀ a ∈ l, a.mutatesPool = true → a.underQueueLock = true

instance (l : List PoolAccess) : Decidable (serializedByQueueLock l) := by
  unfold serializedByQueueLock; infer_instance

/-- The observable actions of one `Yield` call, in program order
(lines 150-168). -/
inductive YieldEvent where
  | demoteCurrentToReady
  | setSelectedRunning
  | pushSuspendedToBack
  | setCurrentPointer
  | controlTransfer
  | garbageCollectOnReturn
  | returnTrue
  | returnFalse
deriving DecidableEq

/-- The action trace of one `Yield` call, transcribed statement by statement
from lines 150-168: on failure, only `return false`; on success, the
conditional demotion (lines 156-157), setting the selected thread kRunning
(line 158), `push_back` of the suspended thread (line 160), the update of
`current_thread` (line 161), the `ContextSwitch` (line 163), and — once
control has come back — `GarbageCollect()` (line 166) before `return true`
(line 168). -/
def yieldEvents (b : Bool) (cur : Thread) (pool : List Thread) : List YieldEvent :=
  match selectNext b pool with
  | none => [YieldEvent.returnFalse]
  | some _ =>
    (if cur.state = State.kRunning then [YieldEvent.demoteCurrentToReady] else [])
      ++ [YieldEvent.setSelectedRunning, YieldEvent.pushSuspendedToBack,
          YieldEvent.setCurrentPointer, YieldEvent.controlTransfer,
          YieldEvent.garbageCollectOnReturn, YieldEvent.returnTrue]

/-- The selection loop picks an eligible thread together with a
front-to-back decomposition of the pool: everything before the selected
thread is ineligible, and the returned remainder is the pool with the
selected thread erased, order preserved. -/
theorem selectNext_some_spec (b : Bool) :
    ∀ (l : List Thread) (t : Thread) (rest : List Thread),
      selectNext b l = some (t, rest) →
      ∃ pre post, l = pre ++ t :: post ∧ rest = pre ++ post ∧
        eligibleP b t ∧ ∀ u ∈ pre, ¬ eligibleP b u := by
  intro l
  induction l with
  | nil => intro t rest h; simp [selectNext] at h
  | cons hd tl ih =>
    intro t rest h
    rw [selectNext] at h
    by_cases h1 : b = false ∧ hd.state = State.kWaiting
    · rw [if_pos h1] at h
      simp only [Option.some.injEq, Prod.mk.injEq] at h
      obtain ⟨rfl, rfl⟩ := h
      exact ⟨[], tl, rfl, rfl, Or.inl h1, by simp⟩
    · rw [if_neg h1] at h
      by_cases h2 : hd.state = State.kReady
      · rw [if_pos h2] at h
        simp only [Option.some.injEq, Prod.mk.injEq] at h
        obtain ⟨rfl, rfl⟩ := h
        exact ⟨[], tl, rfl, rfl, Or.inr h2, by simp⟩
      · rw [if_neg h2] at h
        have hne : ¬ eligibleP b hd := by unfold eligibleP; tauto
        cases heq : selectNext b tl with
        | none => rw [heq] at h; simp at h
        | some p =>
          obtain ⟨n, r⟩ := p
          rw [heq] at h
          simp only [Option.some.injEq, Prod.mk.injEq] at h
          obtain ⟨rfl, rfl⟩ := h
          obtain ⟨pre, post, hl, hr, he, hpre⟩ := ih n r heq
          refine ⟨hd :: pre, post, by simp [hl], by simp [hr], he, ?_⟩
          intro u hu
          rcases List.mem_cons.mp hu with rfl | hu
          · exact hne
          · exact hpre u hu

/-- The selection loop fails exactly when no thread in the pool is
eligible. -/
theorem selectNext_none_iff (b : Bool) :
    ∀ l : List Thread, selectNext b l = none ↔ ∀ t ∈ l, ¬ eligibleP b t := by
  intro l
  induction l with
  | nil => simp [selectNext]
  | cons hd tl ih =>
    rw [selectNext]
    by_cases h1 : b = false ∧ hd.state = State.kWaiting
    · rw [if_pos h1]
      constructor
      · intro hfalse; exact Option.noConfusion hfalse
      · intro hall
        exact absurd (Or.inl h1) (hall hd (List.mem_cons_self hd tl))
    · rw [if_neg h1]
      by_cases h2 : hd.state = State.kReady
      · rw [if_pos h2]
        constructor
        · intro hfalse; exact Option.noConfusion hfalse
        · intro hall
          exact absurd (Or.inr h2) (hall hd (List.mem_cons_self hd tl))
      · rw [if_neg h2]
        have hne : ¬ eligibleP b hd := by unfold eligibleP; tauto
        cases heq : selectNext b tl with
        | none =>
          constructor
          · intro _ t ht
            rcases List.mem_cons.mp ht with rfl | ht
            · exact hne
            · exact (ih.mp heq) t ht
          · intro _; rfl
        | some p =>
          obtain ⟨n, r⟩ := p
          constructor
          · intro hfalse; exact Option.noConfusion hfalse
          · intro hall
            have hnone : selectNext b tl = none :=
              ih.mpr (fun t ht => hall t (List.mem_cons_of_mem hd ht))
            rw [hnone] at heq
            exact Option.noConfusion heq

/-- An eligible thread is never a zombie. -/
theorem eligibleP_not_zombie (b : Bool) (t : Thread) :
    eligibleP b t → t.state ≠ State.kZombie := by
  rintro (⟨_, h⟩ | h) <;> simp [h]

/-- A thread eligible for a Ready-only scan is Ready. -/
theorem eligibleP_true_ready (t : Thread) :
    eligibleP true t → t.state = State.kReady := by
  rintro (⟨h, _⟩ | h)
  · exact absurd h (by simp)
  · exact h

/-- The selected thread was in the pool, and so was everything in the
returned remainder. -/
theorem selectNext_mem (b : Bool) (l : List Thread) (t : Thread)
    (rest : List Thread) (h : selectNext b l = some (t, rest)) :
    t ∈ l ∧ ∀ u ∈ rest, u ∈ l := by
  obtain ⟨pre, post, hl, hr, _, _⟩ := selectNext_some_spec b l t rest h
  subst hl; subst hr
  constructor
  · exact List.mem_append.mpr (Or.inr (List.mem_cons_self t post))
  · intro u hu
    rcases List.mem_append.mp hu with hu | hu
    · exact List.mem_append.mpr (Or.inl hu)
    · exact List.mem_append.mpr (Or.inr (List.mem_cons_of_mem t hu))

/-- If some pool thread is eligible, selection succeeds. -/
theorem selectNext_isSome_of_eligible (b : Bool) (l : List Thread)
    (h : ∃ t ∈ l, eligibleP b t) : (selectNext b l).isSome := by
  cases heq : selectNext b l with
  | none =>
    obtain ⟨t, ht, he⟩ := h
    exact absurd he (((selectNext_none_iff b l).mp heq) t ht)
  | some p => rfl

/-- `GarbageCollect` is the order-preserving filter keeping exactly the
non-zombie threads. -/
theorem garbageCollect_eq_filter (l : List Thread) :
    garbageCollect l = l.filter (fun t => decide (t.state ≠ State.kZombie)) := by
  induction l with
  | nil => rfl
  | cons hd tl ih =>
    by_cases h : hd.state = State.kZombie
    · simp [garbageCollect, h, ih, List.filter]
    · simp [garbageCollect, h, ih, List.filter]

/-- Membership in a garbage-collected pool. -/
theorem mem_garbageCollect (l : List Thread) (t : Thread) :
    t ∈ garbageCollect l ↔ t ∈ l ∧ t.state ≠ State.kZombie := by
  rw [garbageCollect_eq_filter, List.mem_filter]
  simp

/-- `GarbageCollect` is idempotent on the pool. -/
theorem garbageCollect_idem (l : List Thread) :
    garbageCollect (garbageCollect l) = garbageCollect l := by
  induction l with
  | nil => rfl
  | cons hd tl ih =>
    by_cases h : hd.state = State.kZombie
    · simp [garbageCollect, h, ih]
    · simp [garbageCollect, h, ih]

/-- The stacks freed by one pass are exactly those of the zombie threads. -/
theorem gcFreedStacks_eq_filter (l : List Thread) :
    gcFreedStacks l = l.filter (fun t => decide (t.state = State.kZombie)) := by
  induction l with
  | nil => rfl
  | cons hd tl ih =>
    by_cases h : hd.state = State.kZombie
    · simp [gcFreedStacks, h, ih, List.filter]
    · simp [gcFreedStacks, h, ih, List.filter]

/-- A second pass over an already collected pool frees nothing. -/
theorem gcFreedStacks_garbageCollect (l : List Thread) :
    gcFreedStacks (garbageCollect l) = [] := by
  induction l with
  | nil => rfl
  | cons hd tl ih =>
    by_cases h : hd.state = State.kZombie
    · simp [garbageCollect, h, ih]
    · simp [garbageCollect, gcFreedStacks, h, ih]

/-- Safety predicate for a reclaimed-or-terminated thread id `i`: it is not
the current thread, every pool entry carrying it is a zombie, and `i` is in
the already-allocated id range. -/
def ZombieSafe (i : Nat) (s : Sys) : Prop :=
  s.current.id ≠ i ∧ (∀ t ∈ s.pool, t.id = i → t.state = State.kZombie) ∧
    i < s.nextId

/-- One `Yield` transition preserves zombie safety: a zombie is never
selected, so it never becomes the current (running) thread. -/
theorem doYield_zombieSafe (b : Bool) (rc fc : List Instr) (i : Nat)
    (s : Sys) (h : ZombieSafe i s) : ZombieSafe i (doYield b rc fc s) := by
  obtain ⟨hcur, hpool, hn⟩ := h
  unfold doYield
  cases heq : selectNext b s.pool with
  | none => exact ⟨hcur, hpool, hn⟩
  | some p =>
    obtain ⟨next, rest⟩ := p
    obtain ⟨hmem, hrest⟩ := selectNext_mem b s.pool next rest heq
    obtain ⟨_, _, _, _, helig, _⟩ := selectNext_some_spec b s.pool next rest heq
    refine ⟨?_, ?_, hn⟩
    · intro hid
      exact eligibleP_not_zombie b next helig (hpool next hmem hid)
    · intro t ht hid
      rcases List.mem_append.mp ht with ht | ht
      · exact hpool t (hrest t ht) hid
      · rcases List.mem_singleton.mp ht with rfl
        have : (demote s.current).id = s.current.id := by
          unfold demote; split <;> rfl
        rw [this] at hid
        exact absurd hid hcur

/-- Every interpreter step preserves zombie safety. -/
theorem step_zombieSafe (i : Nat) (s : Sys) (h : ZombieSafe i s) :
    ZombieSafe i (step s) := by
  obtain ⟨hcur, hpool, hn⟩ := h
  unfold step
  cases hc : s.current.cont with
  | nil => exact ⟨hcur, hpool, hn⟩
  | cons ins k =>
    cases ins with
    | incr => exact ⟨hcur, hpool, hn⟩
    | markZombie => exact ⟨hcur, hpool, hn⟩
    | setWaiting => exact ⟨hcur, hpool, hn⟩
    | gcRun =>
      refine ⟨hcur, ?_, hn⟩
      intro t ht hid
      exact hpool t ((mem_garbageCollect s.pool t).mp ht).1 hid
    | assertFail => exact ⟨hcur, hpool, hn⟩
    | spawn body =>
      refine ⟨hcur, ?_, Nat.lt_succ_of_lt hn⟩
      intro t ht hid
      rcases List.mem_cons.mp ht with rfl | ht
      · exact absurd hid (by simp; exact Nat.ne_of_gt hn)
      · exact hpool t ht hid
    | yield b => exact doYield_zombieSafe b _ _ i s ⟨hcur, hpool, hn⟩
    | wait => exact ⟨hcur, hpool, hn⟩
    | waitLoop => exact doYield_zombieSafe true _ _ i s ⟨hcur, hpool, hn⟩

/-- Any number of interpreter steps preserves zombie safety: a terminated
thread is never selected again and never becomes current. -/
theorem stepN_zombieSafe (n : Nat) (i : Nat) (s : Sys) (h : ZombieSafe i s) :
    ZombieSafe i (stepN n s) := by
  induction n generalizing s with
  | zero => exact h
  | succ m ih => exact ih (step s) (step_zombieSafe i s h)

/-- Claim C1: for every pool and flag, `Yield(only_ready)` scans the shared
pool front to back and selects the first thread in state Ready or — exactly
when `only_ready` is false — the first thread in state Ready or Waiting; it
never selects a Zombie, and `Yield(true)` never selects a Waiting thread
(the thread it selects is Ready).  When no pool thread is eligible,
selection fails, `Yield` returns false and performs no transfer: the step
only advances the caller past the call, leaving the pool, the counter and
every thread state unchanged. -/
theorem yield_selects_first_eligible (b : Bool) (pool : List Thread) :
    (∀ t rest, selectNext b pool = some (t, rest) →
      (∃ pre post, pool = pre ++ t :: post ∧ rest = pre ++ post ∧
        eligibleP b t ∧ ∀ u ∈ pre, ¬ eligibleP b u) ∧
      t.state ≠ State.kZombie ∧ (b = true → t.state = State.kReady)) ∧
    (∀ t, eligibleP b t ↔
      (t.state = State.kReady ∨ (b = false ∧ t.state = State.kWaiting))) ∧
    (selectNext b pool = none ↔ ∀ t ∈ pool, ¬ eligibleP b t) ∧
    (∀ (s : Sys) (k : List Instr), s.current.cont = Instr.yield b :: k →
      selectNext b s.pool = none →
      step s = { s with current := { s.current with cont := k } }) := by
  refine ⟨?_, ?_, selectNext_none_iff b pool, ?_⟩
  · intro t rest h
    refine ⟨selectNext_some_spec b pool t rest h, ?_, ?_⟩
    · obtain ⟨_, _, _, _, he, _⟩ := selectNext_some_spec b pool t rest h
      exact eligibleP_not_zombie b t he
    · intro hb
      obtain ⟨_, _, _, _, he, _⟩ := selectNext_some_spec b pool t rest h
      exact eligibleP_true_ready t (hb ▸ he)
  · intro t
    unfold eligibleP
    tauto
  · intro s k hc hnone
    simp [step, hc, execInstr, doYield, hnone]

/-- Concrete pool for the C1 witness: a zombie at the front, then a waiting
thread. -/
def c1Pool : List Thread :=
  [{ id := 0, state := State.kZombie, cont := [] },
   { id := 1, state := State.kWaiting, cont := [] }]

/-- Concrete system for the C1 witness: a running caller doing `Yield(true)`
over a pool holding only a Waiting thread, so no thread is eligible. -/
def c1Sys : Sys :=
  { counter := 0,
    current := { id := 7, state := State.kRunning, cont := [Instr.yield true] },
    pool := [{ id := 1, state := State.kWaiting, cont := [] }],
    nextId := 8,
    aborted := false }

/-- Witness for C1 at concrete inputs: `Yield(false)` over `c1Pool` skips
the zombie and selects the waiting thread (which is not a zombie), and the
failing `Yield(true)` of `c1Sys` only advances the caller. -/
theorem yield_selects_first_eligible_witness :
    (({ id := 1, state := State.kWaiting, cont := [] } : Thread).state ≠
      State.kZombie) ∧
    step c1Sys = { c1Sys with current := { c1Sys.current with cont := [] } } :=
  ⟨((yield_selects_first_eligible false c1Pool).1
      { id := 1, state := State.kWaiting, cont := [] }
      [{ id := 0, state := State.kZombie, cont := [] }] (by rfl)).2.1,
   (yield_selects_first_eligible true c1Sys.pool).2.2.2 c1Sys [] (by rfl) (by rfl)⟩

/-- Claim C2: whenever `Yield` finds an eligible thread it performs, in
order: conditional demotion of a still-Running current thread to Ready
(any other current state is kept), promotion of the selected thread to
Running, `push_back` of the suspended thread onto the shared pool, the
update of the context's current pointer, the `ControlTransfer`, and — after
control returns to this call — a `GarbageCollect` pass before returning
true.  The resulting global state makes the selected thread current and
Running and appends the demoted suspended thread (whose resumption runs
`GarbageCollect` first) at the back of the erased pool. -/
theorem yield_switch_steps_in_order (b : Bool) (s : Sys) (k : List Instr)
    (next : Thread) (rest : List Thread)
    (hc : s.current.cont = Instr.yield b :: k)
    (hsel : selectNext b s.pool = some (next, rest)) :
    step s = { s with
      current := { next with state := State.kRunning },
      pool := rest ++ [{ demote s.current with cont := Instr.gcRun :: k }] } ∧
    yieldEvents b s.current s.pool =
      (if s.current.state = State.kRunning
        then [YieldEvent.demoteCurrentToReady] else [])
        ++ [YieldEvent.setSelectedRunning, YieldEvent.pushSuspendedToBack,
            YieldEvent.setCurrentPointer, YieldEvent.controlTransfer,
            YieldEvent.garbageCollectOnReturn, YieldEvent.returnTrue] ∧
    (s.current.state = State.kRunning →
      demote s.current = { s.current with state := State.kReady }) ∧
    (s.current.state ≠ State.kRunning → demote s.current = s.current) := by
  refine ⟨?_, ?_, ?_, ?_⟩
  · simp [step, hc, execInstr, doYield, hsel]
  · simp [yieldEvents, hsel]
  · intro h; unfold demote; rw [if_pos h]
  · intro h; unfold demote; rw [if_neg h]

/-- Concrete system for the C2 witness: a Running caller yields to a Ready
pool thread. -/
def c2Sys : Sys :=
  { counter := 0,
    current := { id := 5, state := State.kRunning,
                 cont := [Instr.yield false, Instr.incr] },
    pool := [{ id := 6, state := State.kReady, cont := [] }],
    nextId := 9,
    aborted := false }

/-- Witness for C2 at `c2Sys`. -/
theorem yield_switch_steps_in_order_witness :
    step c2Sys = { c2Sys with
      current := { ({ id := 6, state := State.kReady, cont := [] } : Thread) with
        state := State.kRunning },
      pool := [] ++ [{ demote c2Sys.current with
        cont := Instr.gcRun :: [Instr.incr] }] } ∧
    yieldEvents false c2Sys.current c2Sys.pool =
      (if c2Sys.current.state = State.kRunning
        then [YieldEvent.demoteCurrentToReady] else [])
        ++ [YieldEvent.setSelectedRunning, YieldEvent.pushSuspendedToBack,
            YieldEvent.setCurrentPointer, YieldEvent.controlTransfer,
            YieldEvent.garbageCollectOnReturn, YieldEvent.returnTrue] ∧
    (c2Sys.current.state = State.kRunning →
      demote c2Sys.current = { c2Sys.current with state := State.kReady }) ∧
    (c2Sys.current.state ≠ State.kRunning →
      demote c2Sys.current = c2Sys.current) :=
  yield_switch_steps_in_order false c2Sys [Instr.incr]
    { id := 6, state := State.kReady, cont := [] } [] rfl rfl

/-- The thread created by `Spawn` on execution context A in the C3 run. -/
def spawnedOnA : Thread := { id := 1, state := State.kWaiting, cont := [] }

/-- Pool after context A ran `Initialize` (its initial thread has id 0) and
`Spawn` inserted the new thread (id 1) at the front of the empty pool. -/
def c3PoolAfterSpawnOnA : List Thread := [spawnedOnA]

/-- Context A's trailing `Yield()` inside `Spawn`: A's initial thread (id 0,
still kWaiting) is suspended into the shared pool and the spawned thread
runs on A. -/
def c3AfterYieldA : Option (KernelCtx × List Thread) :=
  yieldCtx false (initKernelCtx 0) c3PoolAfterSpawnOnA

/-- Context B (initial thread id 2, from the shared atomic id source) now
calls `Yield(false)` over the shared pool left by A. -/
def c3AfterYieldB : Option (KernelCtx × List Thread) :=
  match c3AfterYieldA with
  | some (_, pool1) => yieldCtx false (initKernelCtx 2) pool1
  | none => none

/-- Context B's state after its `Yield(false)`. -/
def c3CtxB : KernelCtx := (c3AfterYieldB.getD (initKernelCtx 99, [])).1

/-- Claim C3 is violated by the code: `Yield` never reads the thread-local
`initial_thread_id` (it is only ever written, in `Initialize`), so in the
reachable two-context run `c3AfterYieldB` context B's `Yield(false)`
selects and makes Running the thread with id 0 — the recorded initial
thread of context A, a different execution context (B's own initial id
is 2). -/
theorem yield_runs_foreign_initial_thread :
    c3AfterYieldB.isSome ∧
    c3CtxB.current.id = (initKernelCtx 0).initialId ∧
    c3CtxB.initialId ≠ (initKernelCtx 0).initialId ∧
    c3CtxB.current.state = State.kRunning := by
  refine ⟨?_, by decide, by decide, by decide⟩
  rfl

/-- Claim C4 is violated by the code: of all accesses to the shared
`thread_queue`, only `GetThreadCount`'s read-only scan takes `queue_lock`;
the mutating accesses of `Spawn` (insert at line 124), `Yield` (erase at
lines 140/144, push_back at line 160) and `GarbageCollect` (erase at line
182) all run with the pool mutex not held. -/
theorem pool_mutations_bypass_queue_lock :
    ¬ serializedByQueueLock allPoolAccesses ∧
    ¬ serializedByQueueLock spawnPoolAccesses ∧
    ¬ serializedByQueueLock yieldPoolAccesses ∧
    ¬ serializedByQueueLock garbageCollectPoolAccesses ∧
    serializedByQueueLock getThreadCountPoolAccesses := by
  decide

/-- Claim C5: `Spawn(fn, arg)` creates a thread whose constructor allocates
a fixed-size stack and sets the floating-point defaults mxcsr = 0x1F80 and
x87 = 0x037F independent of the spawner; the topmost stack slots are primed
as one skipped slot (16-byte call-boundary alignment), then `arg`, then
`fn`, then the entry-trampoline address, with the saved stack pointer at
the trampoline slot; no other slot is written; the new thread goes to the
FRONT of the shared pool and `Spawn` immediately calls `Yield`. -/
theorem spawn_primes_stack_and_inserts_front (fn arg startThreadAddr : Nat) :
    (primeStack fn arg startThreadAddr).slot (stackSlots - 2) = arg ∧
    (primeStack fn arg startThreadAddr).slot (stackSlots - 3) = fn ∧
    (primeStack fn arg startThreadAddr).slot (stackSlots - 4) = startThreadAddr ∧
    (primeStack fn arg startThreadAddr).rspIndex = stackSlots - 4 ∧
    (primeStack fn arg startThreadAddr).slot
      (primeStack fn arg startThreadAddr).rspIndex = startThreadAddr ∧
    (∀ j, j ≠ stackSlots - 2 → j ≠ stackSlots - 3 → j ≠ stackSlots - 4 →
      (primeStack fn arg startThreadAddr).slot j = 0) ∧
    (∀ id, mkThreadObj true id =
      { id := id, state := State.kWaiting, hasStack := true, mxcsr := 0x1F80,
        x87 := 0x037F }) ∧
    kStackSize = 2 ^ 21 ∧
    (∀ (s : Sys) (body k : List Instr), s.current.cont = Instr.spawn body :: k →
      step s = { s with
        pool := { id := s.nextId, state := State.kWaiting,
                  cont := trampolineCont body } :: s.pool,
        nextId := s.nextId + 1,
        current := { s.current with
          cont := Instr.yield yieldDefaultOnlyReady :: k } }) := by
  refine ⟨?_, ?_, ?_, ?_, ?_, ?_, fun id => rfl, rfl, ?_⟩
  · norm_num [primeStack, upd, stackSlots, kStackSize]
  · norm_num [primeStack, upd, stackSlots, kStackSize]
  · norm_num [primeStack, upd, stackSlots, kStackSize]
  · norm_num [primeStack, stackSlots, kStackSize]
  · norm_num [primeStack, upd, stackSlots, kStackSize]
  · intro j h2 h3 h4
    norm_num [primeStack, upd, stackSlots, kStackSize] at *
    simp [h2, h3, h4]
  · intro s body k hc
    simp [step, hc, execInstr]

/-- Concrete system for the C5 witness: a thread about to `Spawn` an empty
body. -/
def c5Sys : Sys :=
  { counter := 0,
    current := { id := 0, state := State.kWaiting, cont := [Instr.spawn []] },
    pool := [],
    nextId := 1,
    aborted := false }

/-- Witness for C5: the skipped alignment slot of a concrete primed frame is
unwritten, and the concrete `Spawn` step inserts at the front and continues
into `Yield`. -/
theorem spawn_primes_stack_and_inserts_front_witness :
    (primeStack 11 22 33).slot (stackSlots - 1) = 0 ∧
    step c5Sys = { c5Sys with
      pool := { id := c5Sys.nextId, state := State.kWaiting,
                cont := trampolineCont [] } :: c5Sys.pool,
      nextId := c5Sys.nextId + 1,
      current := { c5Sys.current with
        cont := Instr.yield yieldDefaultOnlyReady :: [] } } :=
  ⟨(spawn_primes_stack_and_inserts_front 11 22 33).2.2.2.2.2.1
      (stackSlots - 1) (by decide) (by decide) (by decide),
   (spawn_primes_stack_and_inserts_front 11 22 33).2.2.2.2.2.2.2.2
      c5Sys [] [] rfl⟩

/-- Claim C6: the trampoline continuation marks the thread Zombie before its
final `Yield` and would only then hit `ASSERT(false)`; executing the mark
sets the current thread's state to kZombie with the `Yield` next; no
selection ever returns a Zombie; a Zombie current thread is not demoted
(it stays Zombie when pushed into the pool); whenever the pool holds an
eligible thread the final `Yield` switches away (so the trailing assertion
is not reached then); and zombie safety — the terminated id is never
current and only ever sits in the pool as a Zombie — is preserved by any
number of future steps, so the thread is never selected or resumed again. -/
theorem zombie_marked_then_never_selected :
    (∀ body, trampolineCont body = body ++
      [Instr.markZombie, Instr.yield yieldDefaultOnlyReady, Instr.assertFail]) ∧
    (∀ (s : Sys) (k : List Instr), s.current.cont = Instr.markZombie :: k →
      step s = { s with
        current := { s.current with state := State.kZombie, cont := k } }) ∧
    (∀ (b : Bool) (pool : List Thread) (t : Thread) (rest : List Thread),
      selectNext b pool = some (t, rest) → t.state ≠ State.kZombie) ∧
    (∀ t : Thread, t.state = State.kZombie → demote t = t) ∧
    (∀ (b : Bool) (s : Sys) (k : List Instr),
      s.current.cont = Instr.yield b :: k → (∃ t ∈ s.pool, eligibleP b t) →
      ∃ next rest, selectNext b s.pool = some (next, rest) ∧
        step s = { s with
          current := { next with state := State.kRunning },
          pool := rest ++ [{ demote s.current with cont := Instr.gcRun :: k }] }) ∧
    (∀ (n i : Nat) (s : Sys), ZombieSafe i s → ZombieSafe i (stepN n s)) := by
  refine ⟨fun body => rfl, ?_, ?_, ?_, ?_, fun n i s h => stepN_zombieSafe n i s h⟩
  · intro s k hc
    simp [step, hc, execInstr]
  · intro b pool t rest h
    obtain ⟨_, _, _, _, he, _⟩ := selectNext_some_spec b pool t rest h
    exact eligibleP_not_zombie b t he
  · intro t h
    unfold demote
    rw [if_neg (by rw [h]; exact fun hzr => State.noConfusion hzr)]
  · intro b s k hc helig
    have hs := selectNext_isSome_of_eligible b s.pool helig
    cases heq : selectNext b s.pool with
    | none => rw [heq] at hs; simp at hs
    | some p =>
      obtain ⟨next, rest⟩ := p
      exact ⟨next, rest, rfl, by simp [step, hc, execInstr, doYield, heq]⟩

/-- Concrete system for C6: the trampoline of thread 3 has just finished
the user function and is about to mark itself Zombie. -/
def c6MarkSys : Sys :=
  { counter := 0,
    current := { id := 3, state := State.kRunning,
                 cont := [Instr.markZombie, Instr.yield false, Instr.assertFail] },
    pool := [{ id := 0, state := State.kWaiting, cont := [Instr.gcRun] }],
    nextId := 4,
    aborted := false }

/-- Concrete system for C6: thread 3, now a Zombie, performs the
trampoline's final `Yield` with an eligible thread in the pool. -/
def c6YieldSys : Sys :=
  { counter := 0,
    current := { id := 3, state := State.kZombie,
                 cont := [Instr.yield false, Instr.assertFail] },
    pool := [{ id := 0, state := State.kWaiting, cont := [Instr.gcRun] }],
    nextId := 4,
    aborted := false }

/-- Concrete system for C6: zombie thread 3 sits in the pool while thread 0
runs; zombie safety for id 3 survives five further steps. -/
def c6SafeSys : Sys :=
  { counter := 0,
    current := { id := 0, state := State.kRunning, cont := [Instr.yield true] },
    pool := [{ id := 3, state := State.kZombie,
               cont := [Instr.gcRun, Instr.assertFail] }],
    nextId := 4,
    aborted := false }

/-- Witness for C6 at the concrete systems above. -/
theorem zombie_marked_then_never_selected_witness :
    step c6MarkSys = { c6MarkSys with
      current := { c6MarkSys.current with
        state := State.kZombie, cont := [Instr.yield false, Instr.assertFail] } } ∧
    (({ id := 0, state := State.kWaiting, cont := [Instr.gcRun] } : Thread).state ≠
      State.kZombie) ∧
    demote { id := 3, state := State.kZombie, cont := [] } =
      { id := 3, state := State.kZombie, cont := [] } ∧
    (∃ next rest, selectNext false c6YieldSys.pool = some (next, rest) ∧
      step c6YieldSys = { c6YieldSys with
        current := { next with state := State.kRunning },
        pool := rest ++ [{ demote c6YieldSys.current with
          cont := Instr.gcRun :: [Instr.assertFail] }] }) ∧
    ZombieSafe 3 (stepN 5 c6SafeSys) := by
  refine ⟨?_, ?_, ?_, ?_, ?_⟩
  · exact zombie_marked_then_never_selected.2.1 c6MarkSys
      [Instr.yield false, Instr.assertFail] rfl
  · exact zombie_marked_then_never_selected.2.2.1 false c6YieldSys.pool
      { id := 0, state := State.kWaiting, cont := [Instr.gcRun] } [] rfl
  · exact zombie_marked_then_never_selected.2.2.2.1
      { id := 3, state := State.kZombie, cont := [] } rfl
  · exact zombie_marked_then_never_selected.2.2.2.2.1 false c6YieldSys
      [Instr.assertFail] rfl
      ⟨{ id := 0, state := State.kWaiting, cont := [Instr.gcRun] },
        by simp [c6YieldSys], Or.inl ⟨rfl, rfl⟩⟩
  · refine zombie_marked_then_never_selected.2.2.2.2.2 5 3 c6SafeSys
      ⟨by decide, ?_, by decide⟩
    intro t ht hid
    rcases List.mem_singleton.mp ht with rfl
    rfl

/-- Claim C7: `Wait()` first marks the calling thread kWaiting and enters
the `while (Yield(true))` loop; a loop iteration whose `Yield(true)` finds
no Ready candidate returns to `Wait`'s caller with the calling thread still
current and otherwise untouched; an iteration whose `Yield(true)` succeeds
suspends the caller with a resumption that re-marks it kWaiting and
re-enters the loop — so `Wait` returns exactly when a `Yield(true)` call
returns false. -/
theorem wait_loops_until_yield_true_fails (s : Sys) (k : List Instr) :
    (s.current.cont = Instr.wait :: k →
      stepN 2 s = { s with
        current := { s.current with
          state := State.kWaiting, cont := Instr.waitLoop :: k } }) ∧
    (s.current.cont = Instr.waitLoop :: k → selectNext true s.pool = none →
      step s = { s with current := { s.current with cont := k } }) ∧
    (∀ next rest, s.current.cont = Instr.waitLoop :: k →
      selectNext true s.pool = some (next, rest) →
      step s = { s with
        current := { next with state := State.kRunning },
        pool := rest ++ [{ demote s.current with
          cont := Instr.gcRun :: Instr.setWaiting :: Instr.waitLoop :: k }] }) := by
  refine ⟨?_, ?_, ?_⟩
  · intro hc
    simp [stepN, step, hc, execInstr]
  · intro hc hnone
    simp [step, hc, execInstr, doYield, hnone]
  · intro next rest hc hsel
    simp [step, hc, execInstr, doYield, hsel]

/-- Concrete system for C7: thread 0 calls `Wait` while the pool holds only
a Waiting thread (no Ready candidate). -/
def c7WaitSys : Sys :=
  { counter := 0,
    current := { id := 0, state := State.kRunning, cont := [Instr.wait] },
    pool := [{ id := 1, state := State.kWaiting, cont := [] }],
    nextId := 2,
    aborted := false }

/-- Concrete system for C7: the `Wait` loop of thread 0 faces a Ready
candidate. -/
def c7LoopSys : Sys :=
  { counter := 0,
    current := { id := 0, state := State.kWaiting, cont := [Instr.waitLoop] },
    pool := [{ id := 1, state := State.kReady, cont := [Instr.gcRun] }],
    nextId := 2,
    aborted := false }

/-- Witness for C7 at the concrete systems above. -/
theorem wait_loops_until_yield_true_fails_witness :
    stepN 2 c7WaitSys = { c7WaitSys with
      current := { c7WaitSys.current with
        state := State.kWaiting, cont := Instr.waitLoop :: [] } } ∧
    step { c7WaitSys with
      current := { c7WaitSys.current with
        state := State.kWaiting, cont := Instr.waitLoop :: [] } } =
      { { c7WaitSys with
          current := { c7WaitSys.current with
            state := State.kWaiting, cont := Instr.waitLoop :: [] } } with
        current := { { c7WaitSys.current with
          state := State.kWaiting, cont := Instr.waitLoop :: [] } with
            cont := [] } } ∧
    step c7LoopSys = { c7LoopSys with
      current := { ({ id := 1, state := State.kReady, cont := [Instr.gcRun] } : Thread) with
        state := State.kRunning },
      pool := [] ++ [{ demote c7LoopSys.current with
        cont := Instr.gcRun :: Instr.setWaiting :: Instr.waitLoop :: [] }] } :=
  ⟨(wait_loops_until_yield_true_fails c7WaitSys []).1 rfl,
   (wait_loops_until_yield_true_fails
      { c7WaitSys with
        current := { c7WaitSys.current with
          state := State.kWaiting, cont := Instr.waitLoop :: [] } } []).2.1 rfl rfl,
   (wait_loops_until_yield_true_fails c7LoopSys []).2.2
      { id := 1, state := State.kReady, cont := [Instr.gcRun] } [] rfl rfl⟩

/-- Iterated `GarbageCollect`. -/
def gcIter : Nat → List Thread → List Thread
  | 0, l => l
  | n + 1, l => gcIter n (garbageCollect l)

/-- Claim C8: `GarbageCollect` removes from the pool, and frees the stacks
of, exactly the Zombie threads, keeping the non-Zombie threads in their
original relative order (it is the order-preserving filter); a second
consecutive pass removes nothing, changes no counts and frees no stack, and
any number of further passes is a no-op. -/
theorem garbageCollect_exactly_zombies_idempotent (l : List Thread) :
    garbageCollect l = l.filter (fun t => decide (t.state ≠ State.kZombie)) ∧
    (∀ t, t ∈ garbageCollect l ↔ (t ∈ l ∧ t.state ≠ State.kZombie)) ∧
    gcFreedStacks l = l.filter (fun t => decide (t.state = State.kZombie)) ∧
    garbageCollect (garbageCollect l) = garbageCollect l ∧
    getThreadCount (garbageCollect (garbageCollect l)) =
      getThreadCount (garbageCollect l) ∧
    gcFreedStacks (garbageCollect l) = [] ∧
    (∀ n, gcIter n (garbageCollect l) = garbageCollect l) := by
  refine ⟨garbageCollect_eq_filter l, fun t => mem_garbageCollect l t,
    gcFreedStacks_eq_filter l, garbageCollect_idem l,
    by rw [garbageCollect_idem l], gcFreedStacks_garbageCollect l, ?_⟩
  intro n
  induction n with
  | zero => rfl
  | succ m ih =>
    show gcIter m (garbageCollect (garbageCollect l)) = garbageCollect l
    rw [garbageCollect_idem l]
    exact ih

/-- The original thread's program in the C9 scenario: `Spawn(f, a)` where
`f` increments the shared counter once and returns, followed by the
repeated `Yield(true)` calls of the original thread. -/
def c9Main : List Instr :=
  [Instr.spawn [Instr.incr], Instr.yield true, Instr.yield true]

/-- The C9 run after `Spawn` has returned to the original thread: six
interpreter steps (spawn, `Spawn`'s `Yield` switching to the new thread,
the increment, the Zombie marking, the trampoline's `Yield` switching back,
and the automatic `GarbageCollect` of the resumed `Yield`). -/
def c9AfterSpawn : Sys := stepN 6 (initSys c9Main)

/-- The C9 run after the original thread's two explicit `Yield(true)`
calls (both find no Ready candidate and return false). -/
def c9Final : Sys := stepN 8 (initSys c9Main)

/-- Claim C9 as stated is false on the code: in the scenario run the shared
counter does reach 1, but every `GetThreadCount` the original thread can
make after that reports a zombie count of 0, not 1 — the terminated
thread was already reclaimed by the automatic `GarbageCollect` pass that
runs when `Spawn`'s own `Yield` resumes, before `Spawn` even returns. -/
theorem c9_zombie_count_not_one :
    (getThreadCount c9Final.pool).2 ≠ 1 ∧
    (getThreadCount c9Final.pool).2 = 0 ∧
    (getThreadCount c9AfterSpawn.pool).2 = 0 := by
  decide

/-- Claim C9 amended: in the scenario run the counter reaches 1 after at
most two `Yield(true)` calls (indeed already when `Spawn` returns), and a
`GetThreadCount` made after that reports zero zombies and zero runnable
pool threads, the spawned thread having been reclaimed by the automatic
`GarbageCollect`; no assertion is hit. -/
theorem c9_counter_one_zombie_zero :
    c9AfterSpawn.counter = 1 ∧
    c9Final.counter = 1 ∧
    getThreadCount c9Final.pool = (0, 0) ∧
    c9Final.aborted = false := by
  decide

/-- Claim C10: every thread is constructed in state kWaiting — the
constructor sets kWaiting regardless of stack creation, `Initialize` leaves
the execution context's current thread kWaiting (not Running), and a thread
created by `Spawn` enters the pool kWaiting — and a Waiting thread is never
eligible for `Yield(only_ready = true)`: a Ready-only selection returns a
Ready thread, never a Waiting one. -/
theorem threads_constructed_waiting :
    (∀ (cs : Bool) (id : Nat), (mkThreadObj cs id).state = State.kWaiting) ∧
    (∀ id : Nat, (initKernelCtx id).current.state = State.kWaiting ∧
      (initKernelCtx id).current.state ≠ State.kRunning) ∧
    (∀ prog : List Instr, (initSys prog).current.state = State.kWaiting) ∧
    (∀ (s : Sys) (body k : List Instr), s.current.cont = Instr.spawn body :: k →
      (step s).pool =
        { id := s.nextId, state := State.kWaiting,
          cont := trampolineCont body } :: s.pool) ∧
    (∀ (pool : List Thread) (t : Thread) (rest : List Thread),
      selectNext true pool = some (t, rest) →
      t.state = State.kReady ∧ t.state ≠ State.kWaiting) := by
  refine ⟨fun cs id => rfl, fun id => ⟨rfl, fun h => State.noConfusion h⟩,
    fun prog => rfl, ?_, ?_⟩
  · intro s body k hc
    simp [step, hc, execInstr]
  · intro pool t rest h
    obtain ⟨_, _, _, _, he, _⟩ := selectNext_some_spec true pool t rest h
    have hr := eligibleP_true_ready t he
    exact ⟨hr, by rw [hr]; exact fun hrw => State.noConfusion hrw⟩

/-- Concrete system for the C10 witness: a thread about to `Spawn`. -/
def c10Sys : Sys :=
  { counter := 0,
    current := { id := 0, state := State.kWaiting, cont := [Instr.spawn [Instr.incr]] },
    pool := [],
    nextId := 1,
    aborted := false }

/-- Witness for C10: the concrete `Spawn` step enqueues a kWaiting thread at
the front, and `Yield(true)` over a pool led by a Ready thread selects that
Ready (non-Waiting) thread. -/
theorem threads_constructed_waiting_witness :
    (step c10Sys).pool =
      { id := c10Sys.nextId, state := State.kWaiting,
        cont := trampolineCont [Instr.incr] } :: c10Sys.pool ∧
    (({ id := 2, state := State.kReady, cont := [] } : Thread).state = State.kReady ∧
      ({ id := 2, state := State.kReady, cont := [] } : Thread).state ≠ State.kWaiting) :=
  ⟨threads_constructed_waiting.2.2.2.1 c10Sys [Instr.incr] [] rfl,
   threads_constructed_waiting.2.2.2.2 [{ id := 2, state := State.kReady, cont := [] }]
     { id := 2, state := State.kReady, cont := [] } [] rfl⟩

end Chloros
